import Mathlib

/-!
# Damage tracking of the GDI renderer (`src/renderer/gdi/invalidate.cpp`)

A shallow embedding of the invalid-region bookkeeping of `GdiEngine`:
the tracked rectangle `_rcInvalid`, its used flag `_fInvalidRectUsed`,
the accumulated scroll `_szInvalidScroll` and the painted-selection
region `_hrgnGdiPaintedSelection`.

* `LONG` and `SHORT` values are integers; `LongAdd` is the checked
  32-bit signed addition of intsafe.h.
* Every method is a function from the engine state to the returned
  `HRESULT` together with the state the call leaves behind (the C++
  mutates the object in place, also on the paths that return early).
* What a call reads from outside the object is an argument: the result of
  each `GetClientRect` query, the font scaling helpers and the Win32 region
  functions.
-/

namespace GdiInvalidate

/-! ## Data model -/

/-- The result codes the invalidation code can return: `S_OK`, the intsafe
overflow code, the code built from `GetLastError` by the
`RETURN_LAST_ERROR_*` checks, and any other failure code a helper may
hand back. -/
inductive HRESULT where
  | S_OK
  | INTSAFE_E_ARITHMETIC_OVERFLOW
  | E_LAST_ERROR
  | E_OTHER (code : Nat)
  deriving DecidableEq, Repr

/-- The `FAILED` test on a result code. -/
def FAILED : HRESULT → Bool
  | .S_OK => false
  | _ => true

/-- Win32 `RECT`, pixel space. -/
structure RECT where
  left : Int
  top : Int
  right : Int
  bottom : Int
  deriving DecidableEq, Repr

/-- Win32 `POINT`. -/
structure POINT where
  x : Int
  y : Int
  deriving DecidableEq, Repr

/-- Win32 `SIZE`. -/
structure SIZE where
  cx : Int
  cy : Int
  deriving DecidableEq, Repr

/-- Console `COORD`, character-cell space. -/
structure COORD where
  X : Int
  Y : Int
  deriving DecidableEq, Repr

/-- Console `SMALL_RECT`, character-cell space. -/
structure SMALL_RECT where
  Left : Int
  Top : Int
  Right : Int
  Bottom : Int
  deriving DecidableEq, Repr

/-- Smallest value of a 32-bit signed `LONG`. -/
def LONG_MIN : Int := -2147483648

/-- Largest value of a 32-bit signed `LONG`. -/
def LONG_MAX : Int := 2147483647

/-- A value fits a 32-bit signed `LONG`. -/
def inLongRange (v : Int) : Prop := LONG_MIN ≤ v ∧ v ≤ LONG_MAX

instance (v : Int) : Decidable (inLongRange v) := by
  unfold inLongRange; infer_instance

/-- Checked addition `LongAdd` of intsafe.h: the sum when it fits a `LONG`,
the overflow code otherwise. -/
def LongAdd (lAugend lAddend : Int) : Except HRESULT Int :=
  if inLongRange (lAugend + lAddend) then .ok (lAugend + lAddend)
  else .error .INTSAFE_E_ARITHMETIC_OVERFLOW

/-- The fields of `GdiEngine` that invalidate.cpp reads and writes. `HRGN`
is the type of GDI region handles. -/
structure GdiEngine (HRGN : Type) where
  _rcInvalid : RECT
  _fInvalidRectUsed : Bool
  _szInvalidScroll : SIZE
  _hrgnGdiPaintedSelection : HRGN
  deriving DecidableEq

/-- Modelled from the spec: `GdiEngine::_OrRect` is declared in
gdirenderer.hpp and defined outside invalidate.cpp. The spec: "subsequent
calls take the bounding union of existing and new rect (...) a single
enclosing rectangle is kept". It returns nothing, so it cannot fail. -/
def _OrRect (pRectExisting pRectToOr : RECT) : RECT :=
  { left := min pRectExisting.left pRectToOr.left
    top := min pRectExisting.top pRectToOr.top
    right := max pRectExisting.right pRectToOr.right
    bottom := max pRectExisting.bottom pRectToOr.bottom }

/-! ## The helpers of invalidate.cpp -/

section Helpers

variable {HRGN : Type}

/-- Method `GdiEngine::_InvalidRestrict`. `clientRect` is what
`GetClientRect(_hwndTargetWindow, &rcClient)` gives: `none` when it returns
FALSE. -/
def _InvalidRestrict (clientRect : Option RECT) (s : GdiEngine HRGN) :
    HRESULT × GdiEngine HRGN :=
  match clientRect with
  | none => (.E_LAST_ERROR, s)
  | some rcClient =>
    (.S_OK,
      { s with
        _rcInvalid :=
          { left := max s._rcInvalid.left rcClient.left
            right := min s._rcInvalid.right rcClient.right
            top := max s._rcInvalid.top rcClient.top
            bottom := min s._rcInvalid.bottom rcClient.bottom } })

/-- Method `GdiEngine::_InvalidCombine`. -/
def _InvalidCombine (clientRect : Option RECT) (prc : RECT) (s : GdiEngine HRGN) :
    HRESULT × GdiEngine HRGN :=
  let s1 : GdiEngine HRGN :=
    if !s._fInvalidRectUsed then
      { s with _rcInvalid := prc, _fInvalidRectUsed := true }
    else
      { s with _rcInvalid := _OrRect s._rcInvalid prc }
  let r := _InvalidRestrict clientRect s1
  if FAILED r.1 then r else (.S_OK, r.2)

/-- Method `GdiEngine::_InvalidOffset`. -/
def _InvalidOffset (clientRect : Option RECT) (ppt : POINT) (s : GdiEngine HRGN) :
    HRESULT × GdiEngine HRGN :=
  if s._fInvalidRectUsed then
    match LongAdd s._rcInvalid.left ppt.x with
    | .error hr => (hr, s)
    | .ok left =>
    match LongAdd s._rcInvalid.right ppt.x with
    | .error hr => (hr, s)
    | .ok right =>
    match LongAdd s._rcInvalid.top ppt.y with
    | .error hr => (hr, s)
    | .ok top =>
    match LongAdd s._rcInvalid.bottom ppt.y with
    | .error hr => (hr, s)
    | .ok bottom =>
      let s1 : GdiEngine HRGN :=
        { s with _rcInvalid := { left := left, top := top, right := right, bottom := bottom } }
      let r := _InvalidRestrict clientRect s1
      if FAILED r.1 then r else (.S_OK, r.2)
  else
    (.S_OK, s)

/-- Method `GdiEngine::_InvalidateRect`. -/
def _InvalidateRect (clientRect : Option RECT) (prc : RECT) (s : GdiEngine HRGN) :
    HRESULT × GdiEngine HRGN :=
  _InvalidCombine clientRect prc s

/-! ## The public entry points that need no region -/

/-- Method `GdiEngine::InvalidateSystem`. -/
def InvalidateSystem (clientRect : Option RECT) (prcDirtyClient : RECT) (s : GdiEngine HRGN) :
    HRESULT × GdiEngine HRGN :=
  _InvalidCombine clientRect prcDirtyClient s

/-- Method `GdiEngine::InvalidateAll`. It queries the client rect twice: `query1`
is the answer to its own `GetClientRect`, `query2` the answer to the one in
`_InvalidRestrict`. -/
def InvalidateAll (query1 query2 : Option RECT) (s : GdiEngine HRGN) :
    HRESULT × GdiEngine HRGN :=
  match query1 with
  | none => (.E_LAST_ERROR, s)
  | some rc => InvalidateSystem query2 rc s

/-- Method `GdiEngine::InvalidateScroll`. `scaleByFont` stands for the
`_ScaleByFont(const COORD*, POINT*)` helper (defined outside
invalidate.cpp): its result code and the pixel delta it writes. -/
def InvalidateScroll (scaleByFont : COORD → HRESULT × POINT) (clientRect : Option RECT)
    (pcoordDelta : COORD) (s : GdiEngine HRGN) : HRESULT × GdiEngine HRGN :=
  if pcoordDelta.X ≠ 0 ∨ pcoordDelta.Y ≠ 0 then
    let sc := scaleByFont pcoordDelta
    if FAILED sc.1 then (sc.1, s) else
    let ptDelta := sc.2
    let r := _InvalidOffset clientRect ptDelta s
    if FAILED r.1 then r else
    let s1 := r.2
    match LongAdd s1._szInvalidScroll.cx ptDelta.x with
    | .error hr => (hr, s1)
    | .ok cx =>
    match LongAdd s1._szInvalidScroll.cy ptDelta.y with
    | .error hr => (hr, s1)
    | .ok cy => (.S_OK, { s1 with _szInvalidScroll := { cx := cx, cy := cy } })
  else
    (.S_OK, s)

/-- Method `GdiEngine::Invalidate`. `scaleRectByFont` stands for the
`_ScaleByFont(const SMALL_RECT*, RECT*)` helper (defined outside
invalidate.cpp). -/
def Invalidate (scaleRectByFont : SMALL_RECT → HRESULT × RECT) (clientRect : Option RECT)
    (psrRegion : SMALL_RECT) (s : GdiEngine HRGN) : HRESULT × GdiEngine HRGN :=
  let sc := scaleRectByFont psrRegion
  if FAILED sc.1 then (sc.1, s) else
  _InvalidateRect clientRect sc.2 s

end Helpers

/-! ## Regions and the selection entry point -/

/-- The `ERROR` result of the region functions. -/
def ERROR : Int := 0

/-- Region type `NULLREGION`: the region is empty. -/
def NULLREGION : Int := 1

/-- Region type `SIMPLEREGION`: the region is a single rectangle. -/
def SIMPLEREGION : Int := 2

/-- Region type `COMPLEXREGION`: the region is more than a single rectangle. -/
def COMPLEXREGION : Int := 3

/-- Combine mode `RGN_AND`. -/
def RGN_AND : Int := 1

/-- Combine mode `RGN_OR`. -/
def RGN_OR : Int := 2

/-- Combine mode `RGN_XOR`. -/
def RGN_XOR : Int := 3

/-- Combine mode `RGN_DIFF`. -/
def RGN_DIFF : Int := 4

/-- Combine mode `RGN_COPY`. -/
def RGN_COPY : Int := 5

/-- The Win32 region functions invalidate.cpp calls, over a type `HRGN` of
region values. `CreateRectRgn` gives `none` for a NULL handle;
`CombineRgn hrgnDst hrgnSrc1 hrgnSrc2 iMode` gives its return value and the
region the destination holds afterwards; `GetRgnBox` gives its return value
(0 on failure) and the box it writes. They are functions: equal arguments
get equal answers. -/
structure RegionApi (HRGN : Type) where
  CreateRectRgn : Int → Int → Int → Int → Option HRGN
  CombineRgn : HRGN → HRGN → HRGN → Int → Int × HRGN
  GetRgnBox : HRGN → Int × RECT

section Selection

variable {HRGN : Type}

/-- Method `GdiEngine::_InvalidateRgn`. -/
def _InvalidateRgn (api : RegionApi HRGN) (clientRect : Option RECT) (hrgn : HRGN)
    (s : GdiEngine HRGN) : HRESULT × GdiEngine HRGN :=
  let box := api.GetRgnBox hrgn
  if box.1 = 0 then (.E_LAST_ERROR, s) else
  _InvalidateRect clientRect box.2 s

/-- Method `GdiEngine::InvalidateSelection`. `paintSelectionCalculateRegion` stands
for the `_PaintSelectionCalculateRegion` helper (defined outside
invalidate.cpp): its result code and the region it leaves in the handle it
is given. The array `rgsrSelection` of length `cRectangles` is a list. -/
def InvalidateSelection (api : RegionApi HRGN)
    (paintSelectionCalculateRegion : List SMALL_RECT → HRGN → HRESULT × HRGN)
    (clientRect : Option RECT) (rgsrSelection : List SMALL_RECT) (s : GdiEngine HRGN) :
    HRESULT × GdiEngine HRGN :=
  match api.CreateRectRgn 0 0 0 0 with
  | none => (.E_LAST_ERROR, s)
  | some hrgnEmpty =>
    let sel := paintSelectionCalculateRegion rgsrSelection hrgnEmpty
    if FAILED sel.1 then (sel.1, s) else
    let hrgnSelection := sel.2
    match api.CreateRectRgn 0 0 0 0 with
    | none => (.E_LAST_ERROR, s)
    | some hrgnInvalid =>
      let comb := api.CombineRgn hrgnInvalid s._hrgnGdiPaintedSelection hrgnSelection RGN_XOR
      if NULLREGION ≠ comb.1 ∧ ERROR ≠ comb.1 then
        let r := _InvalidateRgn api clientRect comb.2 s
        if FAILED r.1 then r else (.S_OK, r.2)
      else
        (.S_OK, s)

end Selection

/-! ## A pixel-set instance of the region functions

Regions as duplicate-free lists of pixels. It gives the statements about
the selection a concrete platform to be evaluated on. -/

/-- A region as the list of the pixels it covers. -/
abbrev PixelRgn := List (Int × Int)

/-- The pixels of the rectangle `[l, r) × [t, b)`. -/
def pixelsOfRect (l t r b : Int) : PixelRgn :=
  (List.range (r - l).toNat).flatMap fun (i : Nat) =>
    (List.range (b - t).toNat).map fun (j : Nat) => (l + (i : Int), t + (j : Int))

/-- The bounding box of a pixel list; the zero rect for the empty list. -/
def pixelBox : PixelRgn → RECT
  | [] => { left := 0, top := 0, right := 0, bottom := 0 }
  | p :: ps =>
    ps.foldl
      (fun bx q =>
        { left := min bx.left q.1
          top := min bx.top q.2
          right := max bx.right (q.1 + 1)
          bottom := max bx.bottom (q.2 + 1) })
      { left := p.1, top := p.2, right := p.1 + 1, bottom := p.2 + 1 }

/-- The region type of a pixel list: empty, one rectangle, or more. -/
def pixelRegionType (rgn : PixelRgn) : Int :=
  if rgn = [] then NULLREGION
  else if (rgn.length : Int) =
      ((pixelBox rgn).right - (pixelBox rgn).left) * ((pixelBox rgn).bottom - (pixelBox rgn).top)
  then SIMPLEREGION
  else COMPLEXREGION

/-- The function `CombineRgn` on pixel lists. -/
def pixelCombine (hrgnDst hrgnSrc1 hrgnSrc2 : PixelRgn) (iMode : Int) : Int × PixelRgn :=
  if iMode = RGN_AND then
    let d := hrgnSrc1.filter fun p => hrgnSrc2.contains p
    (pixelRegionType d, d)
  else if iMode = RGN_OR then
    let d := hrgnSrc1 ++ hrgnSrc2.filter fun p => !hrgnSrc1.contains p
    (pixelRegionType d, d)
  else if iMode = RGN_XOR then
    let d := (hrgnSrc1.filter fun p => !hrgnSrc2.contains p) ++
      hrgnSrc2.filter fun p => !hrgnSrc1.contains p
    (pixelRegionType d, d)
  else if iMode = RGN_DIFF then
    let d := hrgnSrc1.filter fun p => !hrgnSrc2.contains p
    (pixelRegionType d, d)
  else if iMode = RGN_COPY then
    (pixelRegionType hrgnSrc1, hrgnSrc1)
  else
    (ERROR, hrgnDst)

/-- The region functions on pixel lists; none of them fails. -/
def pixelApi : RegionApi PixelRgn where
  CreateRectRgn := fun l t r b => some (pixelsOfRect l t r b)
  CombineRgn := pixelCombine
  GetRgnBox := fun rgn => (pixelRegionType rgn, pixelBox rgn)

/-- Modelled from the spec: `GdiEngine::_PaintSelectionCalculateRegion` is
defined outside invalidate.cpp. The spec: the selection is an "ordered
sequence of per-line rectangles (character-cell space)", brought to pixel
space by the font scale and collected into one region. Each line rect is
scaled, made a region and OR-ed into the region given; the first failure
stops the loop. -/
def _PaintSelectionCalculateRegion {HRGN : Type} (api : RegionApi HRGN)
    (scaleRectByFont : SMALL_RECT → HRESULT × RECT) :
    List SMALL_RECT → HRGN → HRESULT × HRGN
  | [], hrgnSelection => (.S_OK, hrgnSelection)
  | sr :: rest, hrgnSelection =>
    let sc := scaleRectByFont sr
    if FAILED sc.1 then (sc.1, hrgnSelection) else
    match api.CreateRectRgn sc.2.left sc.2.top sc.2.right sc.2.bottom with
    | none => (.E_LAST_ERROR, hrgnSelection)
    | some hrgnLine =>
      let comb := api.CombineRgn hrgnSelection hrgnSelection hrgnLine RGN_OR
      if comb.1 = ERROR then (.E_LAST_ERROR, comb.2) else
      _PaintSelectionCalculateRegion api scaleRectByFont rest comb.2

/-- A sample for the `_ScaleByFont(const COORD*, POINT*)` helper: a font of
`cx` by `cy` pixels per cell scaling a cell delta, the products checked for
the `LONG` range. -/
def scaleCoordBy (cx cy : Int) (d : COORD) : HRESULT × POINT :=
  if inLongRange (d.X * cx) ∧ inLongRange (d.Y * cy) then
    (.S_OK, { x := d.X * cx, y := d.Y * cy })
  else
    (.INTSAFE_E_ARITHMETIC_OVERFLOW, { x := 0, y := 0 })

/-- A sample for the `_ScaleByFont(const SMALL_RECT*, RECT*)` helper: a font
of `cx` by `cy` pixels per cell scaling a cell rect (inclusive right and
bottom cells) to the pixel rect it covers. -/
def scaleRectBy (cx cy : Int) (sr : SMALL_RECT) : HRESULT × RECT :=
  (.S_OK,
    { left := sr.Left * cx
      top := sr.Top * cy
      right := (sr.Right + 1) * cx
      bottom := (sr.Bottom + 1) * cy })

/-! ## Reference functions used in the statements -/

/-- The clamp of a rect to client bounds `c`, as the statements write it:
left/top raised to, right/bottom lowered to the bounds. -/
def clampTo (c r : RECT) : RECT :=
  { left := max r.left c.left
    top := max r.top c.top
    right := min r.right c.right
    bottom := min r.bottom c.bottom }

/-- A rect moved by a pixel delta, without any range check. -/
def shiftBy (r : RECT) (p : POINT) : RECT :=
  { left := r.left + p.x
    top := r.top + p.y
    right := r.right + p.x
    bottom := r.bottom + p.y }

/-- Each coordinate is bounded by the client bounds on its own side. -/
def withinBounds (c r : RECT) : Prop :=
  c.left ≤ r.left ∧ c.top ≤ r.top ∧ r.right ≤ c.right ∧ r.bottom ≤ c.bottom

/-- The rect is not crossed. -/
def uncrossed (r : RECT) : Prop := r.left ≤ r.right ∧ r.top ≤ r.bottom

instance (r : RECT) : Decidable (uncrossed r) := by
  unfold uncrossed; infer_instance

instance (c r : RECT) : Decidable (withinBounds c r) := by
  unfold withinBounds; infer_instance

/-- The rect `_InvalidCombine` holds before it clamps: the rect given on an
Idle tracker, its union with the tracked rect on a Pending one. -/
def combinedRect {HRGN : Type} (prc : RECT) (s : GdiEngine HRGN) : RECT :=
  if s._fInvalidRectUsed then _OrRect s._rcInvalid prc else prc

/-- An engine right after a paint: nothing tracked, no scroll, no selection
painted. -/
def freshEngine : GdiEngine PixelRgn :=
  { _rcInvalid := { left := 0, top := 0, right := 0, bottom := 0 }
    _fInvalidRectUsed := false
    _szInvalidScroll := { cx := 0, cy := 0 }
    _hrgnGdiPaintedSelection := [] }

/-- A Pending engine tracking a 10 by 10 rect whose accumulated scroll is at
the top of the `LONG` range. -/
def scrolledEngine : GdiEngine PixelRgn :=
  { _rcInvalid := { left := 0, top := 0, right := 10, bottom := 10 }
    _fInvalidRectUsed := true
    _szInvalidScroll := { cx := 2147483647, cy := 0 }
    _hrgnGdiPaintedSelection := [] }

/-- A Pending engine tracking a 10 by 10 rect, no scroll accumulated. -/
def pendingEngine : GdiEngine PixelRgn :=
  { _rcInvalid := { left := 0, top := 0, right := 10, bottom := 10 }
    _fInvalidRectUsed := true
    _szInvalidScroll := { cx := 0, cy := 0 }
    _hrgnGdiPaintedSelection := [] }

/-- A Pending engine whose tracked rect reaches the top of the `LONG`
range. -/
def farEngine : GdiEngine PixelRgn :=
  { _rcInvalid := { left := 0, top := 0, right := 2147483647, bottom := 10 }
    _fInvalidRectUsed := true
    _szInvalidScroll := { cx := 0, cy := 0 }
    _hrgnGdiPaintedSelection := [] }

/-- Client bounds of a 100 by 100 window. -/
def client100 : RECT := { left := 0, top := 0, right := 100, bottom := 100 }

/-- The fresh engine after two scrolls by 32767 cells of a font 32767 pixels
wide. -/
def twiceScrolledEngine : GdiEngine PixelRgn :=
  (InvalidateScroll (scaleCoordBy 32767 32767) (some client100) ⟨32767, 0⟩
    (InvalidateScroll (scaleCoordBy 32767 32767) (some client100) ⟨32767, 0⟩ freshEngine).2).2

/-- A rect is the bounding box of a pixel list: every pixel lies inside it
(right and bottom exclusive) and each of its four sides is touched by some
pixel. -/
def isBoundingBox (bx : RECT) (rgn : PixelRgn) : Prop :=
  (∀ p ∈ rgn, bx.left ≤ p.1 ∧ p.1 < bx.right ∧ bx.top ≤ p.2 ∧ p.2 < bx.bottom) ∧
  (∃ p ∈ rgn, p.1 = bx.left) ∧ (∃ p ∈ rgn, p.1 + 1 = bx.right) ∧
  (∃ p ∈ rgn, p.2 = bx.top) ∧ (∃ p ∈ rgn, p.2 + 1 = bx.bottom)

/-- The region `InvalidateSelection` hands to `_InvalidateRgn` on the pixel
platform: `CombineRgn` with `RGN_XOR` of the painted selection and the region
the selection helper `psc` builds from the lines in a new empty region. -/
def selectionDifference (psc : List SMALL_RECT → PixelRgn → HRESULT × PixelRgn)
    (L : List SMALL_RECT) (s : GdiEngine PixelRgn) : PixelRgn :=
  (pixelApi.CombineRgn [] s._hrgnGdiPaintedSelection (psc L []).2 RGN_XOR).2

/-- A Pending engine tracking a 3 by 3 rect whose painted selection is the
cell (1, 1) of a 2 by 2 font. -/
def paintedEngine : GdiEngine PixelRgn :=
  { _rcInvalid := { left := 0, top := 0, right := 3, bottom := 3 }
    _fInvalidRectUsed := true
    _szInvalidScroll := { cx := 0, cy := 0 }
    _hrgnGdiPaintedSelection := pixelsOfRect 2 2 4 4 }

/-- Client bounds of a window 5 pixels wide and 100 high. -/
def client5 : RECT := { left := 0, top := 0, right := 5, bottom := 100 }

/-! ## Theorems -/

section Theorems

variable {HRGN : Type}

/-! ### What each helper computes -/

/-- With a succeeding bounds query the clamp step returns `S_OK` and replaces
the tracked rect by its clamp; nothing else changes. -/
theorem invalidRestrict_some (c : RECT) (s : GdiEngine HRGN) :
    _InvalidRestrict (some c) s =
      (HRESULT.S_OK, { s with _rcInvalid := clampTo c s._rcInvalid }) := rfl

/-- With a failing bounds query the clamp step returns the last-error code
and changes nothing. -/
theorem invalidRestrict_none (s : GdiEngine HRGN) :
    _InvalidRestrict none s = (HRESULT.E_LAST_ERROR, s) := rfl

/-- Method `_InvalidCombine` with a succeeding bounds query. -/
theorem invalidCombine_some (c prc : RECT) (s : GdiEngine HRGN) :
    _InvalidCombine (some c) prc s =
      (HRESULT.S_OK,
        { s with _rcInvalid := clampTo c (combinedRect prc s), _fInvalidRectUsed := true }) := by
  cases hu : s._fInvalidRectUsed <;>
    simp [_InvalidCombine, _InvalidRestrict, clampTo, combinedRect, FAILED, hu]

/-- Method `_InvalidCombine` with a failing bounds query: the merge is stored, the
clamp is not. -/
theorem invalidCombine_none (prc : RECT) (s : GdiEngine HRGN) :
    _InvalidCombine none prc s =
      (HRESULT.E_LAST_ERROR,
        { s with _rcInvalid := combinedRect prc s, _fInvalidRectUsed := true }) := by
  cases hu : s._fInvalidRectUsed <;>
    simp [_InvalidCombine, _InvalidRestrict, combinedRect, FAILED, hu]

/-- Method `_InvalidCombine` leaves the tracker Pending whatever the bounds query
gives. -/
theorem invalidCombine_used (q : Option RECT) (prc : RECT) (s : GdiEngine HRGN) :
    (_InvalidCombine q prc s).2._fInvalidRectUsed = true := by
  cases q with
  | none => rw [invalidCombine_none]
  | some c => rw [invalidCombine_some]

/-- Method `_InvalidCombine` never touches the painted selection. -/
theorem invalidCombine_selection (q : Option RECT) (prc : RECT) (s : GdiEngine HRGN) :
    (_InvalidCombine q prc s).2._hrgnGdiPaintedSelection = s._hrgnGdiPaintedSelection := by
  cases q with
  | none => rw [invalidCombine_none]
  | some c => rw [invalidCombine_some]

/-- Checked `LongAdd` on a sum in range. -/
theorem longAdd_ok (a b : Int) (h : inLongRange (a + b)) : LongAdd a b = .ok (a + b) := by
  simp [LongAdd, h]

/-- Checked `LongAdd` on a sum out of range. -/
theorem longAdd_overflow (a b : Int) (h : ¬ inLongRange (a + b)) :
    LongAdd a b = .error HRESULT.INTSAFE_E_ARITHMETIC_OVERFLOW := by
  simp [LongAdd, h]

/-- Method `_InvalidOffset` on an Idle tracker does nothing. -/
theorem invalidOffset_idle (q : Option RECT) (p : POINT) (s : GdiEngine HRGN)
    (hIdle : s._fInvalidRectUsed = false) : _InvalidOffset q p s = (HRESULT.S_OK, s) := by
  simp [_InvalidOffset, hIdle]

/-- Method `_InvalidOffset` on a Pending tracker when the four sums are in range
and the bounds query succeeds. -/
theorem invalidOffset_some (c : RECT) (p : POINT) (s : GdiEngine HRGN)
    (hUsed : s._fInvalidRectUsed = true)
    (hl : inLongRange (s._rcInvalid.left + p.x)) (hr : inLongRange (s._rcInvalid.right + p.x))
    (ht : inLongRange (s._rcInvalid.top + p.y)) (hb : inLongRange (s._rcInvalid.bottom + p.y)) :
    _InvalidOffset (some c) p s =
      (HRESULT.S_OK, { s with _rcInvalid := clampTo c (shiftBy s._rcInvalid p) }) := by
  simp [_InvalidOffset, hUsed, longAdd_ok, hl, hr, ht, hb, _InvalidRestrict, clampTo, shiftBy,
    FAILED]

/-- Method `_InvalidOffset` on a Pending tracker when one of the four sums is out
of range: the overflow code, and the state it was given. -/
theorem invalidOffset_overflow (q : Option RECT) (p : POINT) (s : GdiEngine HRGN)
    (hUsed : s._fInvalidRectUsed = true)
    (hov : ¬ (inLongRange (s._rcInvalid.left + p.x) ∧ inLongRange (s._rcInvalid.right + p.x) ∧
      inLongRange (s._rcInvalid.top + p.y) ∧ inLongRange (s._rcInvalid.bottom + p.y))) :
    _InvalidOffset q p s = (HRESULT.INTSAFE_E_ARITHMETIC_OVERFLOW, s) := by
  by_cases hl : inLongRange (s._rcInvalid.left + p.x)
  · by_cases hr : inLongRange (s._rcInvalid.right + p.x)
    · by_cases ht : inLongRange (s._rcInvalid.top + p.y)
      · have hb : ¬ inLongRange (s._rcInvalid.bottom + p.y) := fun hb => hov ⟨hl, hr, ht, hb⟩
        simp [_InvalidOffset, hUsed, longAdd_ok, longAdd_overflow, hl, hr, ht, hb]
      · simp [_InvalidOffset, hUsed, longAdd_ok, longAdd_overflow, hl, hr, ht]
    · simp [_InvalidOffset, hUsed, longAdd_ok, longAdd_overflow, hl, hr]
  · simp [_InvalidOffset, hUsed, longAdd_overflow, hl]

/-- Method `_InvalidOffset` never clears the used flag. -/
theorem invalidOffset_flag (q : Option RECT) (p : POINT) (s : GdiEngine HRGN) :
    (_InvalidOffset q p s).2._fInvalidRectUsed = s._fInvalidRectUsed := by
  unfold _InvalidOffset
  split
  · repeat' split
    all_goals first
      | rfl
      | (cases q <;> simp [_InvalidRestrict, FAILED])
  · rfl

/-- A clamped rect is within the bounds it was clamped to. -/
theorem clampTo_withinBounds (c r : RECT) : withinBounds c (clampTo c r) := by
  simp only [withinBounds, clampTo]
  omega

/-- Clamping twice to the same bounds is clamping once. -/
theorem clampTo_idem (c r : RECT) : clampTo c (clampTo c r) = clampTo c r := by
  simp only [clampTo, RECT.mk.injEq]
  omega

/-- Clamping a rect that is within the bounds gives the rect. -/
theorem clampTo_of_withinBounds (c r : RECT) (h : withinBounds c r) : clampTo c r = r := by
  obtain ⟨l, t, rr, b⟩ := r
  simp only [withinBounds] at h
  simp only [clampTo, RECT.mk.injEq]
  omega

/-- A clamped rect is uncrossed exactly when the rect and the bounds are
uncrossed and overlap. -/
theorem clampTo_uncrossed_iff (c r : RECT) :
    uncrossed (clampTo c r) ↔
      uncrossed r ∧ uncrossed c ∧ r.left ≤ c.right ∧ c.left ≤ r.right ∧
        r.top ≤ c.bottom ∧ c.top ≤ r.bottom := by
  simp only [uncrossed, clampTo]
  omega

/-- The code `S_OK` is not a failure. -/
@[simp]
theorem FAILED_S_OK : FAILED HRESULT.S_OK = false := rfl

/-- The overflow code is a failure. -/
@[simp]
theorem FAILED_overflow : FAILED HRESULT.INTSAFE_E_ARITHMETIC_OVERFLOW = true := rfl

/-- The last-error code is a failure. -/
@[simp]
theorem FAILED_last_error : FAILED HRESULT.E_LAST_ERROR = true := rfl

/-- A result code that is not a failure is `S_OK`. -/
theorem eq_S_OK_of_not_failed (hr : HRESULT) (h : FAILED hr = false) : hr = HRESULT.S_OK := by
  cases hr <;> simp [FAILED] at h ⊢

/-- Method `InvalidateScroll` on an Idle tracker never touches the tracked rect nor
the used flag. -/
theorem invalidateScroll_idle (scaleByFont : COORD → HRESULT × POINT) (q : Option RECT)
    (d : COORD) (s : GdiEngine HRGN) (hIdle : s._fInvalidRectUsed = false) :
    (InvalidateScroll scaleByFont q d s).2._fInvalidRectUsed = false ∧
    (InvalidateScroll scaleByFont q d s).2._rcInvalid = s._rcInvalid := by
  unfold InvalidateScroll
  simp only [invalidOffset_idle q _ s hIdle, FAILED]
  repeat' split
  all_goals simp [hIdle]

/-- Method `InvalidateScroll` never clears the used flag. -/
theorem invalidateScroll_flag (scaleByFont : COORD → HRESULT × POINT) (q : Option RECT)
    (d : COORD) (s : GdiEngine HRGN) :
    (InvalidateScroll scaleByFont q d s).2._fInvalidRectUsed = s._fInvalidRectUsed := by
  have h := invalidOffset_flag q (scaleByFont d).2 s
  unfold InvalidateScroll
  dsimp only
  repeat' split
  all_goals first
    | rfl
    | exact h

/-- Method `InvalidateScroll` on a Pending tracker, non-zero delta, scaling and all
six sums fine, bounds query succeeding. -/
theorem invalidateScroll_some (scaleByFont : COORD → HRESULT × POINT) (c : RECT)
    (d : COORD) (s : GdiEngine HRGN)
    (hUsed : s._fInvalidRectUsed = true) (hd : d.X ≠ 0 ∨ d.Y ≠ 0)
    (hsc : FAILED (scaleByFont d).1 = false)
    (hl : inLongRange (s._rcInvalid.left + (scaleByFont d).2.x))
    (hr : inLongRange (s._rcInvalid.right + (scaleByFont d).2.x))
    (ht : inLongRange (s._rcInvalid.top + (scaleByFont d).2.y))
    (hb : inLongRange (s._rcInvalid.bottom + (scaleByFont d).2.y))
    (hcx : inLongRange (s._szInvalidScroll.cx + (scaleByFont d).2.x))
    (hcy : inLongRange (s._szInvalidScroll.cy + (scaleByFont d).2.y)) :
    InvalidateScroll scaleByFont (some c) d s =
      (HRESULT.S_OK,
        { s with
          _rcInvalid := clampTo c (shiftBy s._rcInvalid (scaleByFont d).2)
          _szInvalidScroll :=
            { cx := s._szInvalidScroll.cx + (scaleByFont d).2.x
              cy := s._szInvalidScroll.cy + (scaleByFont d).2.y } }) := by
  unfold InvalidateScroll
  simp [hd, hsc, invalidOffset_some c _ s hUsed hl hr ht hb, longAdd_ok _ _ hcx,
    longAdd_ok _ _ hcy]

/-- A successful `InvalidateScroll` with a non-zero delta on a Pending
tracker leaves the clamp of the moved rect. -/
theorem invalidateScroll_ok_rect (scaleByFont : COORD → HRESULT × POINT) (c : RECT)
    (d : COORD) (s : GdiEngine HRGN)
    (hUsed : s._fInvalidRectUsed = true) (hd : d.X ≠ 0 ∨ d.Y ≠ 0)
    (hok : (InvalidateScroll scaleByFont (some c) d s).1 = HRESULT.S_OK) :
    (InvalidateScroll scaleByFont (some c) d s).2._rcInvalid =
      clampTo c (shiftBy s._rcInvalid (scaleByFont d).2) := by
  by_cases hsc : FAILED (scaleByFont d).1 = true
  · exfalso
    have : (InvalidateScroll scaleByFont (some c) d s).1 = (scaleByFont d).1 := by
      unfold InvalidateScroll
      simp [hd, hsc]
    rw [this] at hok
    rw [hok] at hsc
    simp at hsc
  · have hsc2 : FAILED (scaleByFont d).1 = false := by simpa using hsc
    by_cases hrange : inLongRange (s._rcInvalid.left + (scaleByFont d).2.x) ∧
        inLongRange (s._rcInvalid.right + (scaleByFont d).2.x) ∧
        inLongRange (s._rcInvalid.top + (scaleByFont d).2.y) ∧
        inLongRange (s._rcInvalid.bottom + (scaleByFont d).2.y)
    · obtain ⟨hl, hr, ht, hb⟩ := hrange
      unfold InvalidateScroll
      simp only [if_pos hd, hsc2, invalidOffset_some c _ s hUsed hl hr ht hb, FAILED_S_OK]
      repeat' split
      all_goals first
        | rfl
        | simp_all
    · exfalso
      have : (InvalidateScroll scaleByFont (some c) d s).1 =
          HRESULT.INTSAFE_E_ARITHMETIC_OVERFLOW := by
        unfold InvalidateScroll
        simp [hd, hsc2, invalidOffset_overflow (some c) _ s hUsed hrange]
      rw [this] at hok
      cases hok

/-- Returning a failed result as it is and a successful one as `S_OK` is
returning the result. -/
theorem return_if_failed_id {α : Type} (r : HRESULT × α) :
    (if FAILED r.1 = true then r else (HRESULT.S_OK, r.2)) = r := by
  obtain ⟨hr, a⟩ := r
  cases hr <;> simp [FAILED]

/-- Merging the same rect a second time, with the same answer of the bounds
query, changes nothing: the result code and the state are those of the first
merge. -/
theorem invalidCombine_idem (q : Option RECT) (prc : RECT) (s : GdiEngine HRGN) :
    _InvalidCombine q prc (_InvalidCombine q prc s).2 = _InvalidCombine q prc s := by
  cases q with
  | none =>
    simp only [invalidCombine_none, combinedRect, _OrRect]
    cases hu : s._fInvalidRectUsed <;> simp
  | some c =>
    simp only [invalidCombine_some, combinedRect, _OrRect, clampTo]
    cases hu : s._fInvalidRectUsed
    · simp
    · simp
      omega

/-- What `InvalidateSelection` does depends on the engine only through the
painted selection `h`: either it returns a fixed code and leaves the engine
as it is, or it is `_InvalidCombine` of a fixed box. -/
theorem invalidateSelection_shape (api : RegionApi HRGN)
    (psc : List SMALL_RECT → HRGN → HRESULT × HRGN) (q : Option RECT)
    (L : List SMALL_RECT) (h : HRGN) :
    (∃ hr, ∀ s : GdiEngine HRGN, s._hrgnGdiPaintedSelection = h →
      InvalidateSelection api psc q L s = (hr, s)) ∨
    (∃ box, ∀ s : GdiEngine HRGN, s._hrgnGdiPaintedSelection = h →
      InvalidateSelection api psc q L s = _InvalidCombine q box s) := by
  cases hc : api.CreateRectRgn 0 0 0 0 with
  | none =>
    exact Or.inl ⟨HRESULT.E_LAST_ERROR, fun s _ => by simp [InvalidateSelection, hc]⟩
  | some h0 =>
    by_cases hf : FAILED (psc L h0).1 = true
    · exact Or.inl ⟨(psc L h0).1, fun s _ => by simp [InvalidateSelection, hc, hf]⟩
    · by_cases hx : NULLREGION ≠ (api.CombineRgn h0 h (psc L h0).2 RGN_XOR).1 ∧
          ERROR ≠ (api.CombineRgn h0 h (psc L h0).2 RGN_XOR).1
      · by_cases hb : (api.GetRgnBox (api.CombineRgn h0 h (psc L h0).2 RGN_XOR).2).1 = 0
        · refine Or.inl ⟨HRESULT.E_LAST_ERROR, fun s hs => ?_⟩
          simp only [InvalidateSelection, hc, hf, hs, if_pos hx, _InvalidateRgn, hb]
          simp
        · refine Or.inr ⟨(api.GetRgnBox (api.CombineRgn h0 h (psc L h0).2 RGN_XOR).2).2,
            fun s hs => ?_⟩
          simp only [InvalidateSelection, hc, hf, hs, if_pos hx, _InvalidateRgn, hb,
            _InvalidateRect]
          simp [return_if_failed_id]
      · refine Or.inl ⟨HRESULT.S_OK, fun s hs => ?_⟩
        simp only [InvalidateSelection, hc, hf, hs, if_neg hx]
        simp

/-- Method `InvalidateSelection` never clears the used flag. -/
theorem invalidateSelection_pending (api : RegionApi HRGN)
    (psc : List SMALL_RECT → HRGN → HRESULT × HRGN) (q : Option RECT)
    (L : List SMALL_RECT) (s : GdiEngine HRGN) (hPending : s._fInvalidRectUsed = true) :
    (InvalidateSelection api psc q L s).2._fInvalidRectUsed = true := by
  rcases invalidateSelection_shape api psc q L s._hrgnGdiPaintedSelection with ⟨hr, h⟩ | ⟨box, h⟩
  · rw [h s rfl]; exact hPending
  · rw [h s rfl]; exact invalidCombine_used q box s

/-- A successful `InvalidateSelection` with bounds `c` leaves the tracked
rect and the used flag alone, or leaves the tracker Pending with the clamp of
a merged box. -/
theorem invalidateSelection_ok (api : RegionApi HRGN)
    (psc : List SMALL_RECT → HRGN → HRESULT × HRGN) (c : RECT)
    (L : List SMALL_RECT) (s : GdiEngine HRGN) :
    ((InvalidateSelection api psc (some c) L s).2._rcInvalid = s._rcInvalid ∧
      (InvalidateSelection api psc (some c) L s).2._fInvalidRectUsed = s._fInvalidRectUsed) ∨
    ((InvalidateSelection api psc (some c) L s).2._fInvalidRectUsed = true ∧
      ∃ box, (InvalidateSelection api psc (some c) L s).2._rcInvalid =
        clampTo c (combinedRect box s)) := by
  rcases invalidateSelection_shape api psc (some c) L s._hrgnGdiPaintedSelection with
    ⟨hr, h⟩ | ⟨box, h⟩
  · rw [h s rfl]; exact Or.inl ⟨rfl, rfl⟩
  · rw [h s rfl, invalidCombine_some]; exact Or.inr ⟨rfl, box, rfl⟩

/-- Method `Invalidate` returns the scaling failure with the engine as it is, or is
`_InvalidCombine` of the scaled rect. -/
theorem invalidate_cases (scaleRectByFont : SMALL_RECT → HRESULT × RECT) (q : Option RECT)
    (sr : SMALL_RECT) (s : GdiEngine HRGN) :
    (FAILED (scaleRectByFont sr).1 = true ∧
      Invalidate scaleRectByFont q sr s = ((scaleRectByFont sr).1, s)) ∨
    Invalidate scaleRectByFont q sr s = _InvalidCombine q (scaleRectByFont sr).2 s := by
  by_cases hf : FAILED (scaleRectByFont sr).1 = true
  · exact Or.inl ⟨hf, by simp [Invalidate, hf]⟩
  · exact Or.inr (by simp [Invalidate, hf, _InvalidateRect])

/-! ### The pixel platform -/

/-- One more pixel folded into a bounding box gives the bounding box of the
longer list. -/
theorem isBoundingBox_snoc (bx : RECT) (seen : PixelRgn) (q : Int × Int)
    (h : isBoundingBox bx seen) :
    isBoundingBox
      { left := min bx.left q.1
        top := min bx.top q.2
        right := max bx.right (q.1 + 1)
        bottom := max bx.bottom (q.2 + 1) }
      (seen ++ [q]) := by
  obtain ⟨hall, ⟨pl, hpl, el⟩, ⟨pr, hpr, er⟩, ⟨pt, hpt, et⟩, ⟨pb, hpb, eb⟩⟩ := h
  have hq : q ∈ seen ++ [q] := by simp
  have hsub : ∀ p, p ∈ seen → p ∈ seen ++ [q] := fun p hp => by simp [hp]
  refine ⟨?_, ?_, ?_, ?_, ?_⟩
  · intro p hp
    rw [List.mem_append, List.mem_singleton] at hp
    rcases hp with hp | rfl
    · have := hall p hp
      simp only
      omega
    · simp only
      omega
  · by_cases hc : q.1 ≤ bx.left
    · exact ⟨q, hq, by simp only; omega⟩
    · exact ⟨pl, hsub pl hpl, by simp only; omega⟩
  · by_cases hc : bx.right ≤ q.1 + 1
    · exact ⟨q, hq, by simp only; omega⟩
    · exact ⟨pr, hsub pr hpr, by simp only; omega⟩
  · by_cases hc : q.2 ≤ bx.top
    · exact ⟨q, hq, by simp only; omega⟩
    · exact ⟨pt, hsub pt hpt, by simp only; omega⟩
  · by_cases hc : bx.bottom ≤ q.2 + 1
    · exact ⟨q, hq, by simp only; omega⟩
    · exact ⟨pb, hsub pb hpb, by simp only; omega⟩

/-- Folding the pixels of a list into the bounding box of the pixels seen so
far gives the bounding box of all of them. -/
theorem isBoundingBox_foldl (ps : PixelRgn) :
    ∀ (seen : PixelRgn) (bx : RECT), isBoundingBox bx seen →
      isBoundingBox
        (ps.foldl
          (fun bx q =>
            { left := min bx.left q.1
              top := min bx.top q.2
              right := max bx.right (q.1 + 1)
              bottom := max bx.bottom (q.2 + 1) })
          bx)
        (seen ++ ps) := by
  induction ps with
  | nil => intro seen bx h; simpa using h
  | cons q ps ih =>
    intro seen bx h
    have hstep := ih (seen ++ [q]) _ (isBoundingBox_snoc bx seen q h)
    simpa [List.append_assoc] using hstep

/-- The box `pixelBox` computes for a non-empty pixel list is its bounding
box. -/
theorem pixelBox_isBoundingBox (rgn : PixelRgn) (h : rgn ≠ []) :
    isBoundingBox (pixelBox rgn) rgn := by
  cases rgn with
  | nil => exact absurd rfl h
  | cons p ps =>
    have h0 : isBoundingBox { left := p.1, top := p.2, right := p.1 + 1, bottom := p.2 + 1 } [p] := by
      refine ⟨?_, ⟨p, by simp, rfl⟩, ⟨p, by simp, rfl⟩, ⟨p, by simp, rfl⟩, ⟨p, by simp, rfl⟩⟩
      intro r hr
      rw [List.mem_singleton] at hr
      subst hr
      simp only
      omega
    have := isBoundingBox_foldl ps [p] _ h0
    simpa [pixelBox] using this

/-- The region type of a pixel list is `NULLREGION` exactly for the empty
list, and never `ERROR`. -/
theorem pixelRegionType_spec (rgn : PixelRgn) :
    (pixelRegionType rgn = NULLREGION ↔ rgn = []) ∧ pixelRegionType rgn ≠ ERROR := by
  unfold pixelRegionType
  by_cases h : rgn = []
  · simp [h, NULLREGION, ERROR]
  · simp only [h, if_false]
    split <;> simp [NULLREGION, SIMPLEREGION, COMPLEXREGION, ERROR]

/-- A pixel is in the XOR of two pixel regions exactly when it is in one of
them and not in the other. -/
theorem pixelCombine_xor_mem (dst a b : PixelRgn) (p : Int × Int) :
    p ∈ (pixelCombine dst a b RGN_XOR).2 ↔ (p ∈ a ∧ p ∉ b) ∨ (p ∈ b ∧ p ∉ a) := by
  simp [pixelCombine, RGN_XOR, RGN_AND, RGN_OR, List.mem_append, List.mem_filter]

/-- The result code of the XOR of two pixel regions is the region type of
the region it leaves. -/
theorem pixelCombine_xor_code (dst a b : PixelRgn) :
    (pixelCombine dst a b RGN_XOR).1 = pixelRegionType (pixelCombine dst a b RGN_XOR).2 := by
  simp [pixelCombine, RGN_XOR, RGN_AND, RGN_OR]

/-- On the pixel platform, when the selection helper does not fail,
`InvalidateSelection` is `_InvalidCombine` of the box of the difference when
the difference has a pixel, and does nothing otherwise. -/
theorem invalidateSelection_pixel (psc : List SMALL_RECT → PixelRgn → HRESULT × PixelRgn)
    (q : Option RECT) (L : List SMALL_RECT) (s : GdiEngine PixelRgn)
    (hsel : FAILED (psc L []).1 = false) :
    InvalidateSelection pixelApi psc q L s =
      if selectionDifference psc L s = [] then (HRESULT.S_OK, s)
      else _InvalidCombine q (pixelBox (selectionDifference psc L s)) s := by
  have hc : pixelApi.CreateRectRgn 0 0 0 0 = some [] := rfl
  have hcode : (pixelApi.CombineRgn [] s._hrgnGdiPaintedSelection (psc L []).2 RGN_XOR).1 =
      pixelRegionType (selectionDifference psc L s) :=
    pixelCombine_xor_code [] s._hrgnGdiPaintedSelection (psc L []).2
  have hspec := pixelRegionType_spec (selectionDifference psc L s)
  by_cases hd : selectionDifference psc L s = []
  · have hnull : pixelRegionType (selectionDifference psc L s) = NULLREGION := hspec.1.2 hd
    have hx : ¬ (NULLREGION ≠
          (pixelApi.CombineRgn [] s._hrgnGdiPaintedSelection (psc L []).2 RGN_XOR).1 ∧
        ERROR ≠ (pixelApi.CombineRgn [] s._hrgnGdiPaintedSelection (psc L []).2 RGN_XOR).1) := by
      rw [hcode, hnull]
      exact fun h => h.1 rfl
    simp only [InvalidateSelection, hc, hsel, if_neg hx, if_pos hd]
    simp
  · have hx : NULLREGION ≠
          (pixelApi.CombineRgn [] s._hrgnGdiPaintedSelection (psc L []).2 RGN_XOR).1 ∧
        ERROR ≠ (pixelApi.CombineRgn [] s._hrgnGdiPaintedSelection (psc L []).2 RGN_XOR).1 := by
      rw [hcode]
      exact ⟨fun h => hd (hspec.1.1 h.symm), fun h => hspec.2 h.symm⟩
    have hb : ¬ (pixelApi.GetRgnBox (selectionDifference psc L s)).1 = 0 := hspec.2
    have hbox : (pixelApi.GetRgnBox (selectionDifference psc L s)).2 =
        pixelBox (selectionDifference psc L s) := rfl
    have hdiff : (pixelApi.CombineRgn [] s._hrgnGdiPaintedSelection (psc L []).2 RGN_XOR).2 =
        selectionDifference psc L s := rfl
    simp only [InvalidateSelection, hc, hsel, if_pos hx, if_neg hd, _InvalidateRgn, hdiff,
      if_neg hb, hbox, _InvalidateRect]
    simp [return_if_failed_id]

/-- The pixels of a rectangle are those inside it, right and bottom
exclusive. -/
theorem pixelsOfRect_mem (l t r b : Int) (p : Int × Int) :
    p ∈ pixelsOfRect l t r b ↔ l ≤ p.1 ∧ p.1 < r ∧ t ≤ p.2 ∧ p.2 < b := by
  obtain ⟨x, y⟩ := p
  rw [pixelsOfRect, List.mem_flatMap]
  constructor
  · rintro ⟨i, hi, hmem⟩
    rw [List.mem_map] at hmem
    obtain ⟨j, hj, heq⟩ := hmem
    rw [List.mem_range] at hi hj
    rw [Prod.mk.injEq] at heq
    dsimp only
    omega
  · rintro ⟨h1, h2, h3, h4⟩
    dsimp only at h1 h2 h3 h4
    refine ⟨(x - l).toNat, List.mem_range.2 (by omega),
      List.mem_map.2 ⟨(y - t).toNat, List.mem_range.2 (by omega), ?_⟩⟩
    rw [Prod.mk.injEq]
    omega

/-- A pixel is in the OR of two pixel regions exactly when it is in one of
them, and the OR never gives `ERROR`. -/
theorem pixelCombine_or (dst a b : PixelRgn) :
    (pixelCombine dst a b RGN_OR).1 ≠ ERROR ∧
    ∀ p : Int × Int, p ∈ (pixelCombine dst a b RGN_OR).2 ↔ p ∈ a ∨ p ∈ b := by
  constructor
  · simp only [pixelCombine, RGN_OR, RGN_AND]
    simp only [show ¬ ((2 : Int) = 1) by decide, if_false, if_true]
    exact (pixelRegionType_spec _).2
  · intro p
    simp only [pixelCombine, RGN_OR, RGN_AND]
    simp only [show ¬ ((2 : Int) = 1) by decide, if_false, if_true]
    simp only [List.mem_append, List.mem_filter]
    by_cases ha : p ∈ a <;> simp [ha]

/-- On the pixel platform, when every line scales without failing, the
selection helper returns `S_OK` and adds to the region it is given the pixels
of the scaled line rects. -/
theorem paintSelection_pixel (scaleRectByFont : SMALL_RECT → HRESULT × RECT)
    (L : List SMALL_RECT) :
    ∀ h0 : PixelRgn, (∀ sr ∈ L, FAILED (scaleRectByFont sr).1 = false) →
      (_PaintSelectionCalculateRegion pixelApi scaleRectByFont L h0).1 = HRESULT.S_OK ∧
      ∀ p : Int × Int,
        p ∈ (_PaintSelectionCalculateRegion pixelApi scaleRectByFont L h0).2 ↔
          p ∈ h0 ∨ ∃ sr ∈ L,
            (scaleRectByFont sr).2.left ≤ p.1 ∧ p.1 < (scaleRectByFont sr).2.right ∧
            (scaleRectByFont sr).2.top ≤ p.2 ∧ p.2 < (scaleRectByFont sr).2.bottom := by
  induction L with
  | nil =>
    intro h0 _
    simp [_PaintSelectionCalculateRegion]
  | cons sr rest ih =>
    intro h0 hall
    have hsr : FAILED (scaleRectByFont sr).1 = false := hall sr (by simp)
    have hrest : ∀ x ∈ rest, FAILED (scaleRectByFont x).1 = false :=
      fun x hx => hall x (by simp [hx])
    have hcr : pixelApi.CreateRectRgn (scaleRectByFont sr).2.left (scaleRectByFont sr).2.top
        (scaleRectByFont sr).2.right (scaleRectByFont sr).2.bottom =
        some (pixelsOfRect (scaleRectByFont sr).2.left (scaleRectByFont sr).2.top
          (scaleRectByFont sr).2.right (scaleRectByFont sr).2.bottom) := rfl
    have hor := pixelCombine_or h0 h0
      (pixelsOfRect (scaleRectByFont sr).2.left (scaleRectByFont sr).2.top
        (scaleRectByFont sr).2.right (scaleRectByFont sr).2.bottom)
    have hne : ¬ (pixelApi.CombineRgn h0 h0
        (pixelsOfRect (scaleRectByFont sr).2.left (scaleRectByFont sr).2.top
          (scaleRectByFont sr).2.right (scaleRectByFont sr).2.bottom) RGN_OR).1 = ERROR := hor.1
    have hstep := ih (pixelApi.CombineRgn h0 h0
        (pixelsOfRect (scaleRectByFont sr).2.left (scaleRectByFont sr).2.top
          (scaleRectByFont sr).2.right (scaleRectByFont sr).2.bottom) RGN_OR).2 hrest
    simp only [_PaintSelectionCalculateRegion, hsr, hcr, if_neg hne]
    refine ⟨by simpa using hstep.1, fun p => ?_⟩
    have hp := hstep.2 p
    have hmem := hor.2 p
    have hin := pixelsOfRect_mem (scaleRectByFont sr).2.left (scaleRectByFont sr).2.top
      (scaleRectByFont sr).2.right (scaleRectByFont sr).2.bottom p
    simp only [Bool.false_eq_true, if_false]
    rw [hp]
    have hmem2 : p ∈ (pixelApi.CombineRgn h0 h0
        (pixelsOfRect (scaleRectByFont sr).2.left (scaleRectByFont sr).2.top
          (scaleRectByFont sr).2.right (scaleRectByFont sr).2.bottom) RGN_OR).2 ↔
        p ∈ h0 ∨ p ∈ pixelsOfRect (scaleRectByFont sr).2.left (scaleRectByFont sr).2.top
          (scaleRectByFont sr).2.right (scaleRectByFont sr).2.bottom := hmem
    rw [hmem2, hin]
    constructor
    · rintro ((h | h) | ⟨x, hx, h⟩)
      · exact Or.inl h
      · exact Or.inr ⟨sr, List.mem_cons_self _ _, h⟩
      · exact Or.inr ⟨x, List.mem_cons_of_mem _ hx, h⟩
    · rintro (h | ⟨x, hx, h⟩)
      · exact Or.inl (Or.inl h)
      · rcases List.mem_cons.1 hx with rfl | hx
        · exact Or.inl (Or.inr h)
        · exact Or.inr ⟨x, hx, h⟩

/-! ### The properties of the specification -/

/-- C1: for every prior tracker state, when both client-bounds queries of
`InvalidateAll` succeed with the same rect `c`, the call returns `S_OK` and
leaves the tracker Pending with the tracked rect equal to `c`; the scroll
and the painted selection are untouched. -/
theorem C1_invalidateAll_tracks_client (c : RECT) (s : GdiEngine HRGN) :
    InvalidateAll (some c) (some c) s =
      (HRESULT.S_OK, { s with _rcInvalid := c, _fInvalidRectUsed := true }) := by
  cases hu : s._fInvalidRectUsed <;>
    simp [InvalidateAll, InvalidateSystem, _InvalidCombine, _InvalidRestrict, _OrRect, FAILED, hu]

/-- C2: from an Idle tracker with constant client bounds `c`, two calls
`InvalidateSystem r1`, `InvalidateSystem r2` both return `S_OK` and leave the
tracked rect equal to the bounding union of `r1` and `r2` clamped to `c`,
coordinate by coordinate; the clamp after the first
call does not show in the result. -/
theorem C2_invalidate_twice_is_clamped_union (c r1 r2 : RECT) (s : GdiEngine HRGN)
    (hIdle : s._fInvalidRectUsed = false) :
    (InvalidateSystem (some c) r1 s).1 = HRESULT.S_OK ∧
    InvalidateSystem (some c) r2 (InvalidateSystem (some c) r1 s).2 =
      (HRESULT.S_OK,
        { s with
          _rcInvalid :=
            { left := max (min r1.left r2.left) c.left
              top := max (min r1.top r2.top) c.top
              right := min (max r1.right r2.right) c.right
              bottom := min (max r1.bottom r2.bottom) c.bottom }
          _fInvalidRectUsed := true }) := by
  simp [InvalidateSystem, _InvalidCombine, _InvalidRestrict, _OrRect, FAILED, hIdle]
  refine ⟨?_, ?_, ?_, ?_⟩ <;> omega

/-- The witness of C2: a fresh engine, bounds 100 by 100, one rect inside
and one reaching outside. -/
theorem C2_invalidate_twice_is_clamped_union_witness :
    freshEngine._fInvalidRectUsed = false ∧
    (InvalidateSystem (some ⟨0, 0, 100, 100⟩) ⟨10, 20, 30, 40⟩ freshEngine).1 = HRESULT.S_OK ∧
    InvalidateSystem (some ⟨0, 0, 100, 100⟩) ⟨-5, 30, 120, 50⟩
        (InvalidateSystem (some ⟨0, 0, 100, 100⟩) ⟨10, 20, 30, 40⟩ freshEngine).2 =
      (HRESULT.S_OK,
        { freshEngine with
          _rcInvalid :=
            { left := max (min 10 (-5)) 0
              top := max (min 20 30) 0
              right := min (max 30 120) 100
              bottom := min (max 40 50) 100 }
          _fInvalidRectUsed := true }) :=
  ⟨rfl, C2_invalidate_twice_is_clamped_union ⟨0, 0, 100, 100⟩ ⟨10, 20, 30, 40⟩ ⟨-5, 30, 120, 50⟩
    freshEngine rfl⟩

/-- C3, the code at the failing input: on a Pending tracker whose
accumulated scroll is `LONG_MAX`, `InvalidateScroll` by one cell (8 pixels)
returns the overflow code from the scroll accumulation after `_InvalidOffset`
has stored the moved rect: the tracked rect is no longer the one before the
call, while the scroll is. The same happens on an engine reached from a fresh
one through the entry points alone (two scrolls while Idle, one
`InvalidateSystem`, then the failing scroll). -/
theorem C3_scroll_overflow_leaves_moved_rect :
    InvalidateScroll (scaleCoordBy 8 16) (some client100) ⟨1, 0⟩ scrolledEngine =
      (HRESULT.INTSAFE_E_ARITHMETIC_OVERFLOW,
        { scrolledEngine with _rcInvalid := { left := 8, top := 0, right := 18, bottom := 10 } }) ∧
    (InvalidateScroll (scaleCoordBy 8 16) (some client100) ⟨1, 0⟩ scrolledEngine).2._rcInvalid ≠
      scrolledEngine._rcInvalid ∧
    (InvalidateScroll (scaleCoordBy 8 16) (some client100) ⟨1, 0⟩ scrolledEngine).2._szInvalidScroll =
      scrolledEngine._szInvalidScroll ∧
    (InvalidateScroll (scaleCoordBy 32767 32767) (some client100) ⟨32767, 0⟩ freshEngine).1 =
      HRESULT.S_OK ∧
    (InvalidateScroll (scaleCoordBy 32767 32767) (some client100) ⟨32767, 0⟩
      (InvalidateScroll (scaleCoordBy 32767 32767) (some client100) ⟨32767, 0⟩ freshEngine).2).1 =
      HRESULT.S_OK ∧
    (InvalidateSystem (some client100) ⟨0, 0, 10, 10⟩ twiceScrolledEngine).1 = HRESULT.S_OK ∧
    InvalidateScroll (scaleCoordBy 32767 32767) (some client100) ⟨5, 0⟩
        (InvalidateSystem (some client100) ⟨0, 0, 10, 10⟩ twiceScrolledEngine).2 =
      (HRESULT.INTSAFE_E_ARITHMETIC_OVERFLOW,
        { twiceScrolledEngine with
          _rcInvalid := { left := 163835, top := 0, right := 100, bottom := 10 }
          _fInvalidRectUsed := true }) := by
  decide

/-- C4 as stated fails: `InvalidateSystem` of a rect lying entirely outside
the client rect succeeds and leaves the tracker Pending with crossed
coordinates, not empty. -/
theorem C4_outside_rect_kept_crossed :
    InvalidateSystem (some client100) ⟨200, 200, 300, 300⟩ freshEngine =
      (HRESULT.S_OK,
        { freshEngine with
          _rcInvalid := { left := 200, top := 200, right := 100, bottom := 100 }
          _fInvalidRectUsed := true }) ∧
    ¬ uncrossed (InvalidateSystem (some client100) ⟨200, 200, 300, 300⟩ freshEngine).2._rcInvalid := by
  decide

/-- C5: on a Pending tracker with rect `R`, for a non-zero cell delta `d`
whose scaling does not fail and gives the pixel delta `p`, when none of the
six checked additions overflows and the bounds query gives `c`,
`InvalidateScroll` returns `S_OK`, the tracked rect is `R` moved by `p` and
then clamped to `c`, the tracker is still Pending and the scroll has grown by
`p`. -/
theorem C5_scroll_moves_then_clamps (scaleByFont : COORD → HRESULT × POINT) (c : RECT)
    (d : COORD) (s : GdiEngine HRGN)
    (hPending : s._fInvalidRectUsed = true) (hd : d.X ≠ 0 ∨ d.Y ≠ 0)
    (hsc : FAILED (scaleByFont d).1 = false)
    (hl : inLongRange (s._rcInvalid.left + (scaleByFont d).2.x))
    (hr : inLongRange (s._rcInvalid.right + (scaleByFont d).2.x))
    (ht : inLongRange (s._rcInvalid.top + (scaleByFont d).2.y))
    (hb : inLongRange (s._rcInvalid.bottom + (scaleByFont d).2.y))
    (hcx : inLongRange (s._szInvalidScroll.cx + (scaleByFont d).2.x))
    (hcy : inLongRange (s._szInvalidScroll.cy + (scaleByFont d).2.y)) :
    (InvalidateScroll scaleByFont (some c) d s).1 = HRESULT.S_OK ∧
    (InvalidateScroll scaleByFont (some c) d s).2._fInvalidRectUsed = true ∧
    (InvalidateScroll scaleByFont (some c) d s).2._rcInvalid =
      { left := max (s._rcInvalid.left + (scaleByFont d).2.x) c.left
        top := max (s._rcInvalid.top + (scaleByFont d).2.y) c.top
        right := min (s._rcInvalid.right + (scaleByFont d).2.x) c.right
        bottom := min (s._rcInvalid.bottom + (scaleByFont d).2.y) c.bottom } := by
  rw [invalidateScroll_some scaleByFont c d s hPending hd hsc hl hr ht hb hcx hcy]
  exact ⟨rfl, hPending, rfl⟩

/-- The witness of C5: a 10 by 10 rect scrolled by (12, -1) cells of an 8 by
16 font inside a 100 by 100 window. -/
theorem C5_scroll_moves_then_clamps_witness :
    (InvalidateScroll (scaleCoordBy 8 16) (some client100) ⟨12, -1⟩ pendingEngine).1 =
      HRESULT.S_OK ∧
    (InvalidateScroll (scaleCoordBy 8 16) (some client100) ⟨12, -1⟩ pendingEngine).2._fInvalidRectUsed
      = true ∧
    (InvalidateScroll (scaleCoordBy 8 16) (some client100) ⟨12, -1⟩ pendingEngine).2._rcInvalid =
      { left := max (pendingEngine._rcInvalid.left + (scaleCoordBy 8 16 ⟨12, -1⟩).2.x) client100.left
        top := max (pendingEngine._rcInvalid.top + (scaleCoordBy 8 16 ⟨12, -1⟩).2.y) client100.top
        right :=
          min (pendingEngine._rcInvalid.right + (scaleCoordBy 8 16 ⟨12, -1⟩).2.x) client100.right
        bottom :=
          min (pendingEngine._rcInvalid.bottom + (scaleCoordBy 8 16 ⟨12, -1⟩).2.y)
            client100.bottom } :=
  C5_scroll_moves_then_clamps (scaleCoordBy 8 16) client100 ⟨12, -1⟩ pendingEngine rfl
    (by decide) (by decide) (by decide) (by decide) (by decide) (by decide) (by decide) (by decide)

/-- C6: on an Idle tracker, for every cell delta, every scaling helper and
every answer of the bounds query, `InvalidateScroll` leaves the used flag
false and the stored rect unchanged, whether it returns `S_OK` or fails. -/
theorem C6_scroll_on_idle_stays_idle (scaleByFont : COORD → HRESULT × POINT) (q : Option RECT)
    (d : COORD) (s : GdiEngine HRGN) (hIdle : s._fInvalidRectUsed = false) :
    (InvalidateScroll scaleByFont q d s).2._fInvalidRectUsed = false ∧
    (InvalidateScroll scaleByFont q d s).2._rcInvalid = s._rcInvalid :=
  invalidateScroll_idle scaleByFont q d s hIdle

/-- The witness of C6: a fresh engine scrolled by three lines, the bounds
query failing. -/
theorem C6_scroll_on_idle_stays_idle_witness :
    freshEngine._fInvalidRectUsed = false ∧
    (InvalidateScroll (scaleCoordBy 8 16) none ⟨0, 3⟩ freshEngine).2._fInvalidRectUsed = false ∧
    (InvalidateScroll (scaleCoordBy 8 16) none ⟨0, 3⟩ freshEngine).2._rcInvalid =
      freshEngine._rcInvalid :=
  ⟨rfl, C6_scroll_on_idle_stays_idle (scaleCoordBy 8 16) none ⟨0, 3⟩ freshEngine rfl⟩

/-- C4 as amended: the clamp never empties the region and keeps crossed
coordinates. With bounds `c`, `InvalidateSystem`, a successful `Invalidate`
and `InvalidateAll` leave the tracker Pending with the clamp of the merged
rect; a successful `InvalidateScroll` by a non-zero delta keeps a Pending
tracker Pending with the clamp of the moved rect; a successful
`InvalidateSelection` leaves rect and flag alone or leaves the tracker Pending
with the clamp of a merged box. The clamp of a rect `R` is uncrossed exactly
when `R` and `c` are uncrossed and overlap. -/
theorem C4_clamp_keeps_crossed_rect (c : RECT) (s : GdiEngine HRGN) :
    (∀ R : RECT, uncrossed (clampTo c R) ↔
      uncrossed R ∧ uncrossed c ∧ R.left ≤ c.right ∧ c.left ≤ R.right ∧
        R.top ≤ c.bottom ∧ c.top ≤ R.bottom) ∧
    (∀ r : RECT, InvalidateSystem (some c) r s =
      (HRESULT.S_OK,
        { s with _rcInvalid := clampTo c (combinedRect r s), _fInvalidRectUsed := true })) ∧
    (∀ (scaleRectByFont : SMALL_RECT → HRESULT × RECT) (sr : SMALL_RECT),
      (Invalidate scaleRectByFont (some c) sr s).1 = HRESULT.S_OK →
      (Invalidate scaleRectByFont (some c) sr s).2 =
        { s with
          _rcInvalid := clampTo c (combinedRect (scaleRectByFont sr).2 s)
          _fInvalidRectUsed := true }) ∧
    InvalidateAll (some c) (some c) s =
      (HRESULT.S_OK,
        { s with _rcInvalid := clampTo c (combinedRect c s), _fInvalidRectUsed := true }) ∧
    (∀ (scaleByFont : COORD → HRESULT × POINT) (d : COORD),
      s._fInvalidRectUsed = true → d.X ≠ 0 ∨ d.Y ≠ 0 →
      (InvalidateScroll scaleByFont (some c) d s).1 = HRESULT.S_OK →
      (InvalidateScroll scaleByFont (some c) d s).2._fInvalidRectUsed = true ∧
      (InvalidateScroll scaleByFont (some c) d s).2._rcInvalid =
        clampTo c (shiftBy s._rcInvalid (scaleByFont d).2)) ∧
    (∀ (api : RegionApi HRGN) (psc : List SMALL_RECT → HRGN → HRESULT × HRGN)
      (L : List SMALL_RECT),
      (InvalidateSelection api psc (some c) L s).1 = HRESULT.S_OK →
      ((InvalidateSelection api psc (some c) L s).2._rcInvalid = s._rcInvalid ∧
        (InvalidateSelection api psc (some c) L s).2._fInvalidRectUsed = s._fInvalidRectUsed) ∨
      ((InvalidateSelection api psc (some c) L s).2._fInvalidRectUsed = true ∧
        ∃ box, (InvalidateSelection api psc (some c) L s).2._rcInvalid =
          clampTo c (combinedRect box s))) := by
  refine ⟨clampTo_uncrossed_iff c, fun r => invalidCombine_some c r s, ?_, ?_, ?_, ?_⟩
  · intro scaleRectByFont sr hok
    rcases invalidate_cases scaleRectByFont (some c) sr s with ⟨hf, h⟩ | h
    · rw [h] at hok
      rw [show (scaleRectByFont sr).1 = HRESULT.S_OK from hok] at hf
      simp at hf
    · rw [h, invalidCombine_some]
  · exact invalidCombine_some c c s
  · intro scaleByFont d hUsed hd hok
    exact ⟨(invalidateScroll_flag scaleByFont (some c) d s).trans hUsed,
      invalidateScroll_ok_rect scaleByFont c d s hUsed hd hok⟩
  · intro api psc L _
    exact invalidateSelection_ok api psc c L s

/-- The witness of C4 as amended: the scroll and the selection parts at a
Pending engine in a 100 by 100 window, the selection being one cell. -/
theorem C4_clamp_keeps_crossed_rect_witness :
    ((InvalidateScroll (scaleCoordBy 8 16) (some client100) ⟨20, 0⟩ pendingEngine).2._fInvalidRectUsed
        = true ∧
      (InvalidateScroll (scaleCoordBy 8 16) (some client100) ⟨20, 0⟩ pendingEngine).2._rcInvalid =
        clampTo client100 (shiftBy pendingEngine._rcInvalid (scaleCoordBy 8 16 ⟨20, 0⟩).2)) ∧
    ¬ uncrossed
      (InvalidateScroll (scaleCoordBy 8 16) (some client100) ⟨20, 0⟩ pendingEngine).2._rcInvalid ∧
    (((InvalidateSelection pixelApi (_PaintSelectionCalculateRegion pixelApi (scaleRectBy 2 2))
          (some client100) [⟨0, 0, 0, 0⟩] pendingEngine).2._rcInvalid = pendingEngine._rcInvalid ∧
        (InvalidateSelection pixelApi (_PaintSelectionCalculateRegion pixelApi (scaleRectBy 2 2))
          (some client100) [⟨0, 0, 0, 0⟩] pendingEngine).2._fInvalidRectUsed =
          pendingEngine._fInvalidRectUsed) ∨
      ((InvalidateSelection pixelApi (_PaintSelectionCalculateRegion pixelApi (scaleRectBy 2 2))
          (some client100) [⟨0, 0, 0, 0⟩] pendingEngine).2._fInvalidRectUsed = true ∧
        ∃ box, (InvalidateSelection pixelApi (_PaintSelectionCalculateRegion pixelApi (scaleRectBy 2 2))
          (some client100) [⟨0, 0, 0, 0⟩] pendingEngine).2._rcInvalid =
            clampTo client100 (combinedRect box pendingEngine))) :=
  ⟨(C4_clamp_keeps_crossed_rect client100 pendingEngine).2.2.2.2.1 (scaleCoordBy 8 16) ⟨20, 0⟩
      rfl (by decide) (by decide),
    by decide,
    (C4_clamp_keeps_crossed_rect client100 pendingEngine).2.2.2.2.2 pixelApi
      (_PaintSelectionCalculateRegion pixelApi (scaleRectBy 2 2)) [⟨0, 0, 0, 0⟩] (by decide)⟩

/-- C7 as stated fails: `InvalidateSelection` does not replace the painted
selection, so a second call with the same lines finds the same non-empty
difference and merges and clamps again. On a fresh engine with one selected
cell the painted selection is still empty after the first call, and when the
window has shrunk between the two calls the tracked rect after the second
call is not the one after the first. -/
theorem C7_second_call_damages_again :
    (InvalidateSelection pixelApi (_PaintSelectionCalculateRegion pixelApi (scaleRectBy 2 2))
      (some client100) [⟨0, 0, 0, 0⟩] freshEngine) =
      (HRESULT.S_OK,
        { freshEngine with
          _rcInvalid := { left := 0, top := 0, right := 2, bottom := 2 }
          _fInvalidRectUsed := true }) ∧
    (InvalidateSelection pixelApi (_PaintSelectionCalculateRegion pixelApi (scaleRectBy 2 2))
      (some client100) [⟨0, 0, 0, 0⟩] freshEngine).2._hrgnGdiPaintedSelection = [] ∧
    (_PaintSelectionCalculateRegion pixelApi (scaleRectBy 2 2) [⟨0, 0, 0, 0⟩] []).2 ≠ [] ∧
    (InvalidateSelection pixelApi (_PaintSelectionCalculateRegion pixelApi (scaleRectBy 2 2))
      (some ⟨0, 0, 1, 1⟩) [⟨0, 0, 0, 0⟩]
      (InvalidateSelection pixelApi (_PaintSelectionCalculateRegion pixelApi (scaleRectBy 2 2))
        (some client100) [⟨0, 0, 0, 0⟩] freshEngine).2).2._rcInvalid ≠
    (InvalidateSelection pixelApi (_PaintSelectionCalculateRegion pixelApi (scaleRectBy 2 2))
      (some client100) [⟨0, 0, 0, 0⟩] freshEngine).2._rcInvalid := by
  decide

/-- C7 as amended: for every line list, every tracker state, every region
platform and every answer of the bounds query, when both calls get the same
answer, a second `InvalidateSelection` with the same lines returns the same
code and leaves the same engine state as the first (tracked rect and used
flag included): the painted selection is not replaced, the same box is merged
again and merging it twice is merging it once. -/
theorem C7_same_lines_twice_same_state (api : RegionApi HRGN)
    (psc : List SMALL_RECT → HRGN → HRESULT × HRGN) (q : Option RECT)
    (L : List SMALL_RECT) (s : GdiEngine HRGN) :
    InvalidateSelection api psc q L (InvalidateSelection api psc q L s).2 =
      InvalidateSelection api psc q L s ∧
    (InvalidateSelection api psc q L s).2._hrgnGdiPaintedSelection =
      s._hrgnGdiPaintedSelection := by
  rcases invalidateSelection_shape api psc q L s._hrgnGdiPaintedSelection with ⟨hr, h⟩ | ⟨box, h⟩
  · rw [h s rfl]
    exact ⟨h s rfl, rfl⟩
  · rw [h s rfl, h _ (invalidCombine_selection q box s)]
    exact ⟨invalidCombine_idem q box s, invalidCombine_selection q box s⟩

/-- C8: a Pending tracker stays Pending through every invalidate-family
call, on every input and whatever the call returns: `InvalidateSystem`,
`Invalidate`, `InvalidateAll`, `InvalidateScroll` and `InvalidateSelection`
all leave `_fInvalidRectUsed` true when it was true. -/
theorem C8_pending_stays_pending (s : GdiEngine HRGN) (hPending : s._fInvalidRectUsed = true) :
    (∀ (q : Option RECT) (r : RECT), (InvalidateSystem q r s).2._fInvalidRectUsed = true) ∧
    (∀ (scaleRectByFont : SMALL_RECT → HRESULT × RECT) (q : Option RECT) (sr : SMALL_RECT),
      (Invalidate scaleRectByFont q sr s).2._fInvalidRectUsed = true) ∧
    (∀ q1 q2 : Option RECT, (InvalidateAll q1 q2 s).2._fInvalidRectUsed = true) ∧
    (∀ (scaleByFont : COORD → HRESULT × POINT) (q : Option RECT) (d : COORD),
      (InvalidateScroll scaleByFont q d s).2._fInvalidRectUsed = true) ∧
    (∀ (api : RegionApi HRGN) (psc : List SMALL_RECT → HRGN → HRESULT × HRGN)
      (q : Option RECT) (L : List SMALL_RECT),
      (InvalidateSelection api psc q L s).2._fInvalidRectUsed = true) := by
  refine ⟨fun q r => invalidCombine_used q r s, ?_, ?_, ?_, ?_⟩
  · intro scaleRectByFont q sr
    rcases invalidate_cases scaleRectByFont q sr s with ⟨_, h⟩ | h
    · rw [h]; exact hPending
    · rw [h]; exact invalidCombine_used q _ s
  · intro q1 q2
    cases q1 with
    | none => exact hPending
    | some rc => exact invalidCombine_used q2 rc s
  · intro scaleByFont q d
    exact (invalidateScroll_flag scaleByFont q d s).trans hPending
  · intro api psc q L
    exact invalidateSelection_pending api psc q L s hPending

/-- The witness of C8: the Pending engine whose scroll is at the top of the
`LONG` range, where `InvalidateScroll` fails. -/
theorem C8_pending_stays_pending_witness :
    scrolledEngine._fInvalidRectUsed = true ∧
    (InvalidateScroll (scaleCoordBy 8 16) (some client100) ⟨1, 0⟩ scrolledEngine).1 =
      HRESULT.INTSAFE_E_ARITHMETIC_OVERFLOW ∧
    (InvalidateScroll (scaleCoordBy 8 16) (some client100) ⟨1, 0⟩ scrolledEngine).2._fInvalidRectUsed
      = true ∧
    (InvalidateAll none none scrolledEngine).2._fInvalidRectUsed = true :=
  ⟨rfl, by decide,
    (C8_pending_stays_pending scrolledEngine rfl).2.2.2.1 (scaleCoordBy 8 16) (some client100)
      ⟨1, 0⟩,
    (C8_pending_stays_pending scrolledEngine rfl).2.2.1 none none⟩

/-- C9: with client bounds `c` the clamp step returns `S_OK`, leaves every
coordinate of the tracked rect bounded by `c` on its own side, and run a
second time with the same `c` changes nothing. So does every call that went
through it: `InvalidateSystem`, a successful `Invalidate`, a successful
`InvalidateAll`, a successful `InvalidateScroll` by a non-zero delta on a
Pending tracker, and a successful `InvalidateSelection` that changed the rect
or the flag. -/
theorem C9_clamped_rect_within_bounds (c : RECT) (s : GdiEngine HRGN) :
    ((_InvalidRestrict (some c) s).1 = HRESULT.S_OK ∧
      c.left ≤ (_InvalidRestrict (some c) s).2._rcInvalid.left ∧
      c.top ≤ (_InvalidRestrict (some c) s).2._rcInvalid.top ∧
      (_InvalidRestrict (some c) s).2._rcInvalid.right ≤ c.right ∧
      (_InvalidRestrict (some c) s).2._rcInvalid.bottom ≤ c.bottom ∧
      _InvalidRestrict (some c) (_InvalidRestrict (some c) s).2 = _InvalidRestrict (some c) s) ∧
    (∀ t : GdiEngine HRGN, withinBounds c t._rcInvalid →
      _InvalidRestrict (some c) t = (HRESULT.S_OK, t)) ∧
    (∀ r : RECT, (InvalidateSystem (some c) r s).1 = HRESULT.S_OK ∧
      withinBounds c (InvalidateSystem (some c) r s).2._rcInvalid ∧
      _InvalidRestrict (some c) (InvalidateSystem (some c) r s).2 =
        (HRESULT.S_OK, (InvalidateSystem (some c) r s).2)) ∧
    (∀ (scaleRectByFont : SMALL_RECT → HRESULT × RECT) (sr : SMALL_RECT),
      (Invalidate scaleRectByFont (some c) sr s).1 = HRESULT.S_OK →
      withinBounds c (Invalidate scaleRectByFont (some c) sr s).2._rcInvalid) ∧
    (∀ q1 : Option RECT, (InvalidateAll q1 (some c) s).1 = HRESULT.S_OK →
      withinBounds c (InvalidateAll q1 (some c) s).2._rcInvalid) ∧
    (∀ (scaleByFont : COORD → HRESULT × POINT) (d : COORD),
      s._fInvalidRectUsed = true → d.X ≠ 0 ∨ d.Y ≠ 0 →
      (InvalidateScroll scaleByFont (some c) d s).1 = HRESULT.S_OK →
      withinBounds c (InvalidateScroll scaleByFont (some c) d s).2._rcInvalid) ∧
    (∀ (api : RegionApi HRGN) (psc : List SMALL_RECT → HRGN → HRESULT × HRGN)
      (L : List SMALL_RECT),
      (InvalidateSelection api psc (some c) L s).1 = HRESULT.S_OK →
      ((InvalidateSelection api psc (some c) L s).2._rcInvalid = s._rcInvalid ∧
        (InvalidateSelection api psc (some c) L s).2._fInvalidRectUsed = s._fInvalidRectUsed) ∨
      withinBounds c (InvalidateSelection api psc (some c) L s).2._rcInvalid) := by
  refine ⟨?_, ?_, ?_, ?_, ?_, ?_, ?_⟩
  · have hw := clampTo_withinBounds c s._rcInvalid
    rw [invalidRestrict_some, invalidRestrict_some]
    exact ⟨rfl, hw.1, hw.2.1, hw.2.2.1, hw.2.2.2, by rw [clampTo_idem]⟩
  · intro t ht
    rw [invalidRestrict_some, clampTo_of_withinBounds c t._rcInvalid ht]
  · intro r
    rw [InvalidateSystem, invalidCombine_some, invalidRestrict_some]
    exact ⟨rfl, clampTo_withinBounds c _, by rw [clampTo_idem]⟩
  · intro scaleRectByFont sr hok
    rcases invalidate_cases scaleRectByFont (some c) sr s with ⟨hf, h⟩ | h
    · rw [h] at hok
      rw [show (scaleRectByFont sr).1 = HRESULT.S_OK from hok] at hf
      simp at hf
    · rw [h, invalidCombine_some]
      exact clampTo_withinBounds c _
  · intro q1 hok
    cases q1 with
    | none => simp [InvalidateAll] at hok
    | some rc =>
      simp only [InvalidateAll, InvalidateSystem, invalidCombine_some]
      exact clampTo_withinBounds c _
  · intro scaleByFont d hUsed hd hok
    rw [invalidateScroll_ok_rect scaleByFont c d s hUsed hd hok]
    exact clampTo_withinBounds c _
  · intro api psc L _
    rcases invalidateSelection_ok api psc c L s with h | ⟨_, box, h⟩
    · exact Or.inl h
    · rw [h]
      exact Or.inr (clampTo_withinBounds c _)

/-- The witness of C9: a 10 by 10 rect scrolled out of a 100 by 100 window is
clamped to the window's right edge. -/
theorem C9_clamped_rect_within_bounds_witness :
    pendingEngine._fInvalidRectUsed = true ∧
    (InvalidateScroll (scaleCoordBy 8 16) (some client100) ⟨20, 0⟩ pendingEngine).1 =
      HRESULT.S_OK ∧
    withinBounds client100
      (InvalidateScroll (scaleCoordBy 8 16) (some client100) ⟨20, 0⟩ pendingEngine).2._rcInvalid ∧
    (InvalidateScroll (scaleCoordBy 8 16) (some client100) ⟨20, 0⟩ pendingEngine).2._rcInvalid =
      { left := 160, top := 0, right := 100, bottom := 10 } :=
  ⟨rfl, by decide,
    (C9_clamped_rect_within_bounds client100 pendingEngine).2.2.2.2.2.1 (scaleCoordBy 8 16) ⟨20, 0⟩
      rfl (by decide) (by decide),
    by decide⟩

/-- C10: in `_InvalidOffset` on a Pending tracker, when one of the four sums
left+x, right+x, top+y, bottom+y is outside the `LONG` range, the step
returns the overflow code and the engine is the one before the call: no
coordinate is updated, the used flag is unchanged, and the clamp is not run
(the answer of the bounds query plays no part, not even a failing one). -/
theorem C10_offset_overflow_keeps_state (q : Option RECT) (p : POINT) (s : GdiEngine HRGN)
    (hPending : s._fInvalidRectUsed = true)
    (hov : ¬ inLongRange (s._rcInvalid.left + p.x) ∨ ¬ inLongRange (s._rcInvalid.right + p.x) ∨
      ¬ inLongRange (s._rcInvalid.top + p.y) ∨ ¬ inLongRange (s._rcInvalid.bottom + p.y)) :
    _InvalidOffset q p s = (HRESULT.INTSAFE_E_ARITHMETIC_OVERFLOW, s) := by
  apply invalidOffset_overflow q p s hPending
  rintro ⟨hl, hr, ht, hb⟩
  rcases hov with h | h | h | h
  · exact h hl
  · exact h hr
  · exact h ht
  · exact h hb

/-- The witness of C10: a rect reaching `LONG_MAX` moved right by one pixel;
only right+x overflows, and left is not moved either. -/
theorem C10_offset_overflow_keeps_state_witness :
    farEngine._fInvalidRectUsed = true ∧
    inLongRange (farEngine._rcInvalid.left + 1) ∧
    ¬ inLongRange (farEngine._rcInvalid.right + 1) ∧
    _InvalidOffset none ⟨1, 0⟩ farEngine = (HRESULT.INTSAFE_E_ARITHMETIC_OVERFLOW, farEngine) :=
  ⟨rfl, by decide, by decide,
    C10_offset_overflow_keeps_state none ⟨1, 0⟩ farEngine rfl (Or.inr (Or.inl (by decide)))⟩

/-- C12: with constant client bounds `c` and from every tracker state, two
`InvalidateSystem` calls leave the same engine state (tracked rect and used
flag included) and return the same code in either order of their rects, and
invalidating the same rect twice is invalidating it once. -/
theorem C12_invalidate_order_independent (c r1 r2 : RECT) (s : GdiEngine HRGN) :
    InvalidateSystem (some c) r2 (InvalidateSystem (some c) r1 s).2 =
      InvalidateSystem (some c) r1 (InvalidateSystem (some c) r2 s).2 ∧
    InvalidateSystem (some c) r1 (InvalidateSystem (some c) r1 s).2 =
      InvalidateSystem (some c) r1 s := by
  refine ⟨?_, invalidCombine_idem (some c) r1 s⟩
  simp only [InvalidateSystem, invalidCombine_some, combinedRect, _OrRect, clampTo]
  cases hu : s._fInvalidRectUsed
  · simp
    omega
  · simp
    omega

/-- C13 as stated fails: when the bounds query fails, `InvalidateSystem` on a
fresh engine returns the last-error code with the rect already stored and the
tracker already Pending; the engine is not the one before the call. -/
theorem C13_failed_invalidate_has_merged :
    InvalidateSystem none ⟨1, 2, 3, 4⟩ freshEngine =
      (HRESULT.E_LAST_ERROR,
        { freshEngine with
          _rcInvalid := { left := 1, top := 2, right := 3, bottom := 4 }
          _fInvalidRectUsed := true }) ∧
    freshEngine._fInvalidRectUsed = false ∧
    (InvalidateSystem none ⟨1, 2, 3, 4⟩ freshEngine).2 ≠ freshEngine := by
  decide

/-- C13 as amended: `InvalidateSystem` (and `_InvalidCombine`) fails exactly
when the bounds query fails and never with the overflow code, whatever the
coordinates; on that error path the rect has been merged without the clamp:
the tracker is Pending and holds the rect given (Idle before) or its bounding
union with the tracked rect (Pending before), the scroll and the painted
selection being untouched. -/
theorem C13_invalidate_fails_iff_query_fails (q : Option RECT) (r : RECT) (s : GdiEngine HRGN) :
    (FAILED (InvalidateSystem q r s).1 = true ↔ q = none) ∧
    (InvalidateSystem q r s).1 ≠ HRESULT.INTSAFE_E_ARITHMETIC_OVERFLOW ∧
    _InvalidCombine q r s = InvalidateSystem q r s ∧
    InvalidateSystem none r s =
      (HRESULT.E_LAST_ERROR,
        { s with
          _rcInvalid := if s._fInvalidRectUsed then _OrRect s._rcInvalid r else r
          _fInvalidRectUsed := true }) := by
  refine ⟨?_, ?_, rfl, invalidCombine_none r s⟩
  · cases q with
    | none => simp [InvalidateSystem, invalidCombine_none]
    | some c => simp [InvalidateSystem, invalidCombine_some]
  · cases q with
    | none => simp [InvalidateSystem, invalidCombine_none]
    | some c => simp [InvalidateSystem, invalidCombine_some]

/-- C11: on the pixel platform, when the selection helper builds the region
of the new lines without failing, `InvalidateSelection` adds the bounding box
of the symmetric difference of that region and the painted selection. A pixel
is in the difference exactly when it is in one of the two regions and not in
the other. When the difference has a pixel, its box is its bounding box and
the call returns what `InvalidateSystem` of that box returns and leaves the
same engine: with bounds `c` it returns `S_OK`, the tracker is Pending and
the tracked rect is the box (Idle before) or the bounding union of the tracked
rect and the box (Pending before), clamped to `c`; with a failing bounds
query it returns the last-error code with the same merge left unclamped. When
the difference has no pixel, the call returns `S_OK` and leaves the engine as
it was. -/
theorem C11_selection_adds_box_of_difference
    (psc : List SMALL_RECT → PixelRgn → HRESULT × PixelRgn) (q : Option RECT)
    (L : List SMALL_RECT) (s : GdiEngine PixelRgn) (hsel : FAILED (psc L []).1 = false) :
    (∀ p : Int × Int, p ∈ selectionDifference psc L s ↔
      (p ∈ s._hrgnGdiPaintedSelection ∧ p ∉ (psc L []).2) ∨
        (p ∈ (psc L []).2 ∧ p ∉ s._hrgnGdiPaintedSelection)) ∧
    (selectionDifference psc L s ≠ [] →
      isBoundingBox (pixelBox (selectionDifference psc L s)) (selectionDifference psc L s) ∧
      InvalidateSelection pixelApi psc q L s =
        InvalidateSystem q (pixelBox (selectionDifference psc L s)) s ∧
      (∀ c : RECT, q = some c →
        InvalidateSelection pixelApi psc q L s =
          (HRESULT.S_OK,
            { s with
              _rcInvalid :=
                { left :=
                    max
                      (if s._fInvalidRectUsed then
                        min s._rcInvalid.left (pixelBox (selectionDifference psc L s)).left
                      else (pixelBox (selectionDifference psc L s)).left)
                      c.left
                  top :=
                    max
                      (if s._fInvalidRectUsed then
                        min s._rcInvalid.top (pixelBox (selectionDifference psc L s)).top
                      else (pixelBox (selectionDifference psc L s)).top)
                      c.top
                  right :=
                    min
                      (if s._fInvalidRectUsed then
                        max s._rcInvalid.right (pixelBox (selectionDifference psc L s)).right
                      else (pixelBox (selectionDifference psc L s)).right)
                      c.right
                  bottom :=
                    min
                      (if s._fInvalidRectUsed then
                        max s._rcInvalid.bottom (pixelBox (selectionDifference psc L s)).bottom
                      else (pixelBox (selectionDifference psc L s)).bottom)
                      c.bottom }
              _fInvalidRectUsed := true })) ∧
      (q = none →
        InvalidateSelection pixelApi psc q L s =
          (HRESULT.E_LAST_ERROR,
            { s with
              _rcInvalid :=
                { left :=
                    if s._fInvalidRectUsed then
                      min s._rcInvalid.left (pixelBox (selectionDifference psc L s)).left
                    else (pixelBox (selectionDifference psc L s)).left
                  top :=
                    if s._fInvalidRectUsed then
                      min s._rcInvalid.top (pixelBox (selectionDifference psc L s)).top
                    else (pixelBox (selectionDifference psc L s)).top
                  right :=
                    if s._fInvalidRectUsed then
                      max s._rcInvalid.right (pixelBox (selectionDifference psc L s)).right
                    else (pixelBox (selectionDifference psc L s)).right
                  bottom :=
                    if s._fInvalidRectUsed then
                      max s._rcInvalid.bottom (pixelBox (selectionDifference psc L s)).bottom
                    else (pixelBox (selectionDifference psc L s)).bottom }
              _fInvalidRectUsed := true }))) ∧
    (selectionDifference psc L s = [] →
      InvalidateSelection pixelApi psc q L s = (HRESULT.S_OK, s)) := by
  refine ⟨fun p => pixelCombine_xor_mem [] _ _ p, ?_, ?_⟩
  · intro hd
    refine ⟨pixelBox_isBoundingBox _ hd, ?_, ?_, ?_⟩
    · rw [invalidateSelection_pixel psc q L s hsel, if_neg hd]
      rfl
    · intro c hq
      rw [invalidateSelection_pixel psc q L s hsel, if_neg hd, hq]
      cases hu : s._fInvalidRectUsed <;>
        simp [_InvalidCombine, _InvalidRestrict, _OrRect, hu]
    · intro hq
      rw [invalidateSelection_pixel psc q L s hsel, if_neg hd, hq]
      cases hu : s._fInvalidRectUsed <;>
        simp [_InvalidCombine, _InvalidRestrict, _OrRect, hu]
  · intro hd
    rw [invalidateSelection_pixel psc q L s hsel, if_pos hd]

/-- The witness of C11: with the cell (1, 1) painted and the cells (1, 1)
and (2, 1) selected, font 2 by 2, the difference is the cell (2, 1) with box
(4, 2, 6, 4); merged into the tracked rect (0, 0, 3, 3) and clamped to a
window 5 pixels wide it leaves (0, 0, 5, 4), which is not the rect before. -/
theorem C11_selection_adds_box_of_difference_witness :
    FAILED (_PaintSelectionCalculateRegion pixelApi (scaleRectBy 2 2) [⟨1, 1, 2, 1⟩] []).1 = false ∧
    selectionDifference (_PaintSelectionCalculateRegion pixelApi (scaleRectBy 2 2))
      [⟨1, 1, 2, 1⟩] paintedEngine = [(4, 2), (4, 3), (5, 2), (5, 3)] ∧
    pixelBox (selectionDifference (_PaintSelectionCalculateRegion pixelApi (scaleRectBy 2 2))
      [⟨1, 1, 2, 1⟩] paintedEngine) = { left := 4, top := 2, right := 6, bottom := 4 } ∧
    InvalidateSelection pixelApi (_PaintSelectionCalculateRegion pixelApi (scaleRectBy 2 2))
        (some client5) [⟨1, 1, 2, 1⟩] paintedEngine =
      InvalidateSystem (some client5)
        (pixelBox (selectionDifference (_PaintSelectionCalculateRegion pixelApi (scaleRectBy 2 2))
          [⟨1, 1, 2, 1⟩] paintedEngine))
        paintedEngine ∧
    InvalidateSelection pixelApi (_PaintSelectionCalculateRegion pixelApi (scaleRectBy 2 2))
        (some client5) [⟨1, 1, 2, 1⟩] paintedEngine =
      (HRESULT.S_OK,
        { paintedEngine with _rcInvalid := { left := 0, top := 0, right := 5, bottom := 4 } }) ∧
    (InvalidateSelection pixelApi (_PaintSelectionCalculateRegion pixelApi (scaleRectBy 2 2))
        (some client5) [⟨1, 1, 2, 1⟩] paintedEngine).2._rcInvalid =
      { left := 0, top := 0, right := 5, bottom := 4 } ∧
    (InvalidateSelection pixelApi (_PaintSelectionCalculateRegion pixelApi (scaleRectBy 2 2))
        (some client5) [⟨1, 1, 2, 1⟩] paintedEngine).2._rcInvalid ≠ paintedEngine._rcInvalid :=
  ⟨by decide, by decide, by decide,
    ((C11_selection_adds_box_of_difference
      (_PaintSelectionCalculateRegion pixelApi (scaleRectBy 2 2)) (some client5)
      [⟨1, 1, 2, 1⟩] paintedEngine (by decide)).2.1 (by decide)).2.1,
    ((C11_selection_adds_box_of_difference
      (_PaintSelectionCalculateRegion pixelApi (scaleRectBy 2 2)) (some client5)
      [⟨1, 1, 2, 1⟩] paintedEngine (by decide)).2.1 (by decide)).2.2.1 client5 rfl,
    by decide, by decide⟩

end Theorems

end GdiInvalidate
